import Mathlib

/-!
Shallow embedding of the mail storage engine of this repository: the SMTP
deposit path (`src/SMTP_SERVER/src/smtpserver.py`) and the IMAP read path
(`src/IMAP_SERVER/src/IMAPserver.py`).  Directories are modelled as lists of
entries (name, regular-file flag, content); Python dicts are modelled as
association lists with insert-or-overwrite semantics preserving insertion
order, exactly like CPython dicts.  Twisted `Deferred` successes and failures
are modelled with `Except`.
-/

deriving instance DecidableEq for Except

namespace MailSpec

/-- One entry of a mailbox directory: a file name, whether the entry is a
regular file (subdirectories are skipped by `DiskMailbox.refresh`), and the
file's textual content. -/
structure DirEntry where
  name : String
  isFile : Bool
  content : String
  deriving DecidableEq, Repr

/-- A directory: the list of its entries, in unspecified on-disk order. -/
abbrev Dir := List DirEntry

/-- Well-formedness of a real directory: entry names are distinct. -/
def DirWF (d : Dir) : Prop := (d.map DirEntry.name).Nodup

/-- Opening a file of the directory by name for reading, as `open(path, 'r')`
does: the first entry with that name is opened; opening a non-file entry or a
missing name fails (`none`). -/
def dirLookup (d : Dir) (n : String) : Option String :=
  match d with
  | [] => none
  | e :: rest => if e.name = n then (if e.isFile then some e.content else none) else dirLookup rest n

/-- Writing a file, as `open(path, 'w')` followed by `write`: an existing
regular file with that name is truncated and rewritten in place, otherwise a
new regular file is appended to the directory. -/
def dirWrite (d : Dir) (n : String) (c : String) : Dir :=
  if d.any (fun e => e.name = n) then
    d.map (fun e => if e.name = n ∧ e.isFile then { e with content := c } else e)
  else
    d ++ [⟨n, true, c⟩]

/-- Insert-or-overwrite on an association list, mirroring `dict[k] = v` in
Python on a duplicate-free list: an existing key keeps its position and gets
the new value, a new key is appended at the end. -/
def dinsert [DecidableEq α] : List (α × β) → α → β → List (α × β)
  | [], k, v => [(k, v)]
  | p :: rest, k, v => if p.1 = k then (k, v) :: rest else p :: dinsert rest k v

/-- Key lookup on an association list, mirroring `d[k]` / `k in d`. -/
def dlookup [DecidableEq α] : List (α × β) → α → Option β
  | [], _ => none
  | (k, v) :: rest, a => if k = a then some v else dlookup rest a

/-! ### Character-level string operations

Python's `str.upper`, `str.lower`, `str.strip` and lexicographic string
comparison, embedded structurally over `String.data` so that they compute.
The messages and credentials of this repository are ASCII, where these agree
with Python's Unicode versions. -/

/-- ASCII uppercase of one character (`str.upper`). -/
def chUp (c : Char) : Char := if 'a' ≤ c ∧ c ≤ 'z' then Char.ofNat (c.toNat - 32) else c

/-- ASCII lowercase of one character (`str.lower`). -/
def chDown (c : Char) : Char := if 'A' ≤ c ∧ c ≤ 'Z' then Char.ofNat (c.toNat + 32) else c

/-- `s.upper()`. -/
def sUpper (s : String) : String := String.mk (s.data.map chUp)

/-- `s.lower()`. -/
def sLower (s : String) : String := String.mk (s.data.map chDown)

/-- `s.strip()`: drop leading and trailing whitespace. -/
def sTrim (s : String) : String :=
  String.mk (((s.data.dropWhile Char.isWhitespace).reverse.dropWhile Char.isWhitespace).reverse)

/-- Lexicographic `<=` on character lists, as Python compares strings. -/
def chListLe : List Char → List Char → Bool
  | [], _ => true
  | _ :: _, [] => false
  | a :: as, b :: bs => if a = b then chListLe as bs else decide (a < b)

/-- Lexicographic `<=` on strings (the order used by `sorted`). -/
def strLe (a b : String) : Bool := chListLe a.data b.data

/-! ### IMAP side: `SimpleMessage`, `DiskMailbox` (IMAPserver.py) -/

/-- `SimpleMessage(content, uid)`: full RFC822 text plus the UID it was
constructed with. -/
structure SimpleMessage where
  content : String
  uid : Nat
  deriving DecidableEq, Repr

/-- `SimpleMessage.getUID`. -/
def SimpleMessage.getUID (m : SimpleMessage) : Nat := m.uid

/-- `SimpleMessage.getRFC822Text`: the message, unmodified. -/
def SimpleMessage.getRFC822Text (m : SimpleMessage) : String := m.content

/-- `SimpleMessage.getFlags`: always the empty list. -/
def SimpleMessage.getFlags (_ : SimpleMessage) : List String := []

/-- The `NoSuchMessage(num)` exception, carrying the offending number. -/
structure NoSuchMessage where
  num : Nat
  deriving DecidableEq, Repr

/-- The state of a `DiskMailbox`: the backing directory, the `self.messages`
snapshot taken by the last `refresh`, and `self.uidValidity`. -/
structure DiskMailbox where
  dir : Dir
  messages : List String
  uidValidity : Nat
  deriving DecidableEq, Repr

/-- Is `n` the name of a regular file of `d` (`os.path.isfile`)? -/
def isFileName (d : Dir) (n : String) : Bool := d.any (fun e => e.name = n && e.isFile)

/-- The listing computed by `DiskMailbox.refresh`: `sorted(os.listdir(path))`
restricted to regular files.  `sorted` is Python's stable sort by the
lexicographic order; `List.insertionSort` is a stable sort by the same
order, hence produces the same list. -/
def refreshListing (d : Dir) : List String :=
  (List.insertionSort (fun a b => strLe a b = true) (d.map DirEntry.name)).filter (isFileName d)

/-- `DiskMailbox.refresh`: re-list the directory and reset `uidValidity = 1`. -/
def DiskMailbox.refresh (mb : DiskMailbox) : DiskMailbox :=
  { mb with messages := refreshListing mb.dir, uidValidity := 1 }

/-- `DiskMailbox.__init__` over an existing directory: starts with a refresh. -/
def mkDiskMailbox (d : Dir) : DiskMailbox :=
  DiskMailbox.refresh { dir := d, messages := [], uidValidity := 1 }

/-- `DiskMailbox.listMessages`: refresh, then `range(1, len(messages) + 1)`.
Returns the mailbox state after the call together with the range. -/
def DiskMailbox.listMessages (mb : DiskMailbox) : DiskMailbox × List Nat :=
  let mb2 := mb.refresh
  (mb2, List.range' 1 mb2.messages.length)

/-- `DiskMailbox.getMessage(num)`: bounds-check `num` against the snapshot
`self.messages` (no refresh), open the `num`-th listed file, and wrap it as a
`SimpleMessage` with `uid = num`; an unreadable or out-of-range entry fails
with `NoSuchMessage(num)`. -/
def DiskMailbox.getMessage (mb : DiskMailbox) (num : Nat) :
    Except NoSuchMessage SimpleMessage :=
  if 1 ≤ num ∧ num ≤ mb.messages.length then
    match mb.messages[num - 1]? with
    | some n =>
      match dirLookup mb.dir n with
      | some content => .ok { content := content, uid := num }
      | none => .error ⟨num⟩
    | none => .error ⟨num⟩
  else .error ⟨num⟩

/-- A `FetchResult`: the message plus the `(FLAGS, RFC822)` item list built by
`fetch`'s `add_result` callback. -/
structure FetchResult where
  message : SimpleMessage
  items : List (String × String)
  deriving DecidableEq, Repr

/-- `add_result` in `DiskMailbox.fetch`: pair the message with its rendered
flags (always `()` since flags are empty) and its full RFC822 text. -/
def addResult (m : SimpleMessage) : FetchResult :=
  { message := m
    items := [("FLAGS", if m.getFlags.isEmpty then "()"
                        else "(" ++ String.intercalate " " m.getFlags ++ ")"),
              ("RFC822", m.getRFC822Text)] }

/-- The loop of `DiskMailbox.fetch` over explicit message numbers: each
number is retrieved independently with `getMessage`; a success stores its
`FetchResult` under that number in the `results` dict, a failure leaves
`results` untouched.  All deferreds here are already fired, so dict insertion
order is the iteration order. -/
def fetchGo (mb : DiskMailbox) (nums : List Nat) (acc : List (Nat × FetchResult)) :
    List (Nat × FetchResult) :=
  match nums with
  | [] => acc
  | n :: rest =>
    match mb.getMessage n with
    | .ok m => fetchGo mb rest (dinsert acc n (addResult m))
    | .error _ => fetchGo mb rest acc

/-- `DiskMailbox.fetch(messages)` when `list(messages)` succeeds, i.e. on an
explicit list of message numbers: `list(results.items())` after the loop.
The state is untouched on this path.  (The `uid` parameter of the source is
never used in the body; the open-ended `MessageSet` branch, where
`list(messages)` raises `TypeError`, is `DiskMailbox.fetchRange` below.)
The batch itself always completes. -/
def DiskMailbox.fetch (mb : DiskMailbox) (nums : List Nat) : List (Nat × FetchResult) :=
  fetchGo mb nums []

/-- `DiskMailbox.getMessageCount`: refresh, then `len(self.messages)`;
returns the new state with the count. -/
def DiskMailbox.getMessageCount (mb : DiskMailbox) : DiskMailbox × Nat :=
  let mb2 := mb.refresh
  (mb2, mb2.messages.length)

/-- `DiskMailbox.fetch(messages)` on an open-ended `MessageSet`
(`first:*`): `list(messages)` raises `TypeError("... last value not set")`,
and the handler resolves `range(first, self.getMessageCount() + 1)` —
`getMessageCount` refreshes and mutates `self`, so the loop then retrieves
from the freshly refreshed state.  Returns that state with the results. -/
def DiskMailbox.fetchRange (mb : DiskMailbox) (first : Nat) :
    DiskMailbox × List (Nat × FetchResult) :=
  let r := mb.getMessageCount
  (r.1, fetchGo r.1 (List.range' first (r.2 + 1 - first)) [])

/-- `DiskMailbox.getRecentCount`: always 0. -/
def DiskMailbox.getRecentCount (_ : DiskMailbox) : Nat := 0

/-- `DiskMailbox.getUIDValidity`. -/
def DiskMailbox.getUIDValidity (mb : DiskMailbox) : Nat := mb.uidValidity

/-- `DiskMailbox.getUIDNext`: `uidValidity + len(self.messages) + 1`, from the
current snapshot without refreshing. -/
def DiskMailbox.getUIDNext (mb : DiskMailbox) : Nat :=
  mb.uidValidity + mb.messages.length + 1

/-- The loop of `DiskMailbox.requestStatus`: each requested name is
upper-cased; recognized names store their value in the `result` dict (only
`MESSAGES` refreshes, through `getMessageCount`), unrecognized names are
skipped. -/
def requestStatusGo (mb : DiskMailbox) (names : List String)
    (acc : List (String × Nat)) : DiskMailbox × List (String × Nat) :=
  match names with
  | [] => (mb, acc)
  | n :: rest =>
    let u := sUpper n
    if u = "MESSAGES" then
      let r := mb.getMessageCount
      requestStatusGo r.1 rest (dinsert acc "MESSAGES" r.2)
    else if u = "RECENT" then
      requestStatusGo mb rest (dinsert acc "RECENT" mb.getRecentCount)
    else if u = "UIDNEXT" then
      requestStatusGo mb rest (dinsert acc "UIDNEXT" mb.getUIDNext)
    else if u = "UIDVALIDITY" then
      requestStatusGo mb rest (dinsert acc "UIDVALIDITY" mb.getUIDValidity)
    else if u = "UNSEEN" then
      requestStatusGo mb rest (dinsert acc "UNSEEN" 0)
    else
      requestStatusGo mb rest acc

/-- `DiskMailbox.requestStatus(names)`: the status dict, together with the
mailbox state after the call. -/
def DiskMailbox.requestStatus (mb : DiskMailbox) (names : List String) :
    DiskMailbox × List (String × Nat) :=
  requestStatusGo mb names []

/-- A mailbox state that agrees with its directory: names are distinct on
disk, the snapshot is the fresh listing and `uidValidity` is 1 (which
`refresh` always makes it). -/
def Refreshed (mb : DiskMailbox) : Prop :=
  DirWF mb.dir ∧ mb.messages = refreshListing mb.dir ∧ mb.uidValidity = 1

instance (mb : DiskMailbox) : Decidable (Refreshed mb) := by
  unfold Refreshed DirWF; infer_instance

/-! ### `DiskAccount`, account resolution and the credential checker -/

/-- A `DiskAccount`: owns exactly the one INBOX mailbox. -/
structure DiskAccount where
  inbox : DiskMailbox
  deriving DecidableEq, Repr

/-- `DiskAccount.create(name)`: `INBOX` (case-insensitively) succeeds with the
inbox; any other name also succeeds, with `None` — no failure is raised. -/
def DiskAccount.create (a : DiskAccount) (name : String) :
    Except String (Option DiskMailbox) :=
  if sUpper name = "INBOX" then .ok (some a.inbox) else .ok none

/-- `DiskAccount.delete(name)`: always fails. -/
def DiskAccount.delete (_ : DiskAccount) (_ : String) :
    Except String (Option DiskMailbox) :=
  .error "No se permite eliminar buzones."

/-- `DiskAccount.rename(oldName, newName)`: always fails. -/
def DiskAccount.rename (_ : DiskAccount) (_ _ : String) :
    Except String (Option DiskMailbox) :=
  .error "No se permite renombrar buzones."

/-- The mail-storage root, as the set of existing per-user mailbox
directories: `(domain, local)` keys mapped to the directory's contents; a key
absent from the list is a directory that does not exist on disk. -/
abbrev Storage := List ((String × String) × Dir)

/-- The failures of account resolution. -/
inductive ResolveErr where
  | malformedAddress
  | mailboxNotFound
  deriving DecidableEq, Repr

/-- `username.split('@', 1)` on character lists: the part before the first
separator and everything after it. -/
def splitFirstAt (sep : Char) : List Char → List Char × List Char
  | [] => ([], [])
  | c :: rest =>
    if c = sep then ([], rest)
    else
      let p := splitFirstAt sep rest
      (c :: p.1, p.2)

/-- `local, domain = username.split('@', 1)` as strings. -/
def splitAddr (addr : String) : String × String :=
  let p := splitFirstAt '@' addr.data
  (String.mk p.1, String.mk p.2)

/-- `DiskAccount.__init__(username, mail_storage)`: reject a username with no
`'@'` at all; otherwise split at the first `'@'` into local part and domain,
and build the `DiskMailbox` over `<mail_storage>/<domain>/<local>`, which
fails when that directory does not exist. -/
def resolveAccount (st : Storage) (addr : String) : Except ResolveErr DiskAccount :=
  if addr.data.contains '@' = false then .error .malformedAddress
  else
    match dlookup st ((splitAddr addr).2, (splitAddr addr).1) with
    | some d => .ok ⟨mkDiskMailbox d⟩
    | none => .error .mailboxNotFound

/-- `CSVChecker.__init__`: fold the credential rows into `self.users`,
stripping the `email` and `password` fields of each row. -/
def loadUsers (rows : List (String × String)) : List (String × String) :=
  rows.foldl (fun acc r => dinsert acc (sTrim r.1) (sTrim r.2)) []

/-- `CSVChecker.requestAvatarId`: succeed with the username exactly when it is
a key of `self.users` whose stored password equals the supplied one; both
failure shapes produce the same `UnauthorizedLogin` value. -/
def requestAvatarId (users : List (String × String)) (username password : String) :
    Except String String :=
  match dlookup users username with
  | some pw => if pw = password then .ok username else .error "Usuario o contraseña inválidos"
  | none => .error "Usuario o contraseña inválidos"

/-! ### SMTP side: `MessageDelivery.validateTo` and `Message` (smtpserver.py) -/

/-- The SMTP `Message` sink: recipient coordinates plus the line buffer. -/
structure SmtpMessage where
  domain : String
  user : String
  lines : List String
  deriving DecidableEq, Repr

/-- The `SMTPBadRcpt(user)` rejection, carrying the rejected recipient. -/
structure SMTPBadRcpt where
  domain : String
  localPart : String
  deriving DecidableEq, Repr

/-- `MessageDelivery.validateTo(user)`: accept exactly when the recipient's
domain equals one of the accepted domains case-insensitively, creating the
sink with domain and local part passed through unmodified; otherwise raise
`SMTPBadRcpt(user)`. -/
def validateTo (acceptedDomains : List String) (domain lc : String) :
    Except SMTPBadRcpt SmtpMessage :=
  if acceptedDomains.any (fun d => sLower domain = sLower d) then
    .ok { domain := domain, user := lc, lines := [] }
  else
    .error ⟨domain, lc⟩

/-- `Message.lineReceived(line)`: append the line to the buffer. -/
def SmtpMessage.lineReceived (m : SmtpMessage) (line : String) : SmtpMessage :=
  { m with lines := m.lines ++ [line] }

/-- `Message.eomReceived` restricted to the recipient's mailbox directory:
join the buffered lines with a single newline and write them to the freshly
generated `message_<millis>.eml` file name (the timestamp is an input here).
Returns the directory after the write. -/
def SmtpMessage.eomReceived (m : SmtpMessage) (d : Dir) (filename : String) : Dir :=
  dirWrite d filename (String.intercalate "\n" m.lines)

/-! ### Concrete instances used by witnesses and counterexamples -/

/-- A three-message mailbox directory. -/
def dir3 : Dir :=
  [⟨"m1.eml", true, "Subject: one\n\nfirst"⟩,
   ⟨"m2.eml", true, "Subject: two\n\nsecond"⟩,
   ⟨"m3.eml", true, "Subject: three\n\nthird"⟩]

/-- A five-message mailbox directory. -/
def dir5 : Dir :=
  [⟨"m1.eml", true, "a"⟩, ⟨"m2.eml", true, "b"⟩, ⟨"m3.eml", true, "c"⟩,
   ⟨"m4.eml", true, "d"⟩, ⟨"m5.eml", true, "e"⟩]

/-- The directory holding messages B and C after file A was removed. -/
def dirBC : Dir := [⟨"B.eml", true, "msgB"⟩, ⟨"C.eml", true, "msgC"⟩]

/-- A mailbox whose snapshot predates the deposit of `a.eml`: the directory
holds one file but `self.messages` is still the listing of the empty
directory. -/
def mbStale : DiskMailbox :=
  { dir := [⟨"a.eml", true, "x"⟩], messages := refreshListing [], uidValidity := 1 }

/-- The status fields recognized by `requestStatus`; anything else is
silently skipped. -/
def recognizedKeys : List String :=
  ["MESSAGES", "RECENT", "UIDNEXT", "UIDVALIDITY", "UNSEEN"]

/-- The value `requestStatus` reports for each recognized field, read off a
mailbox state: message count, constant 0 recent, `uidValidity + N + 1` as the
next UID, the `uidValidity` marker, and constant 0 unseen. -/
def statusValue (mb : DiskMailbox) (k : String) : Option Nat :=
  if k = "MESSAGES" then some mb.messages.length
  else if k = "RECENT" then some 0
  else if k = "UIDNEXT" then some (mb.uidValidity + mb.messages.length + 1)
  else if k = "UIDVALIDITY" then some mb.uidValidity
  else if k = "UNSEEN" then some 0
  else none

/-! ### Supporting lemmas -/

theorem dlookup_dinsert_self [DecidableEq α] (l : List (α × β)) (k : α) (v : β) :
    dlookup (dinsert l k v) k = some v := by
  induction l with
  | nil => simp [dinsert, dlookup]
  | cons p rest ih =>
    by_cases hp : p.1 = k
    · simp [dinsert, dlookup, hp]
    · simp [dinsert, dlookup, hp, ih]

theorem dlookup_dinsert_ne [DecidableEq α] (l : List (α × β)) (k a : α) (v : β)
    (h : a ≠ k) : dlookup (dinsert l k v) a = dlookup l a := by
  induction l with
  | nil => simp [dinsert, dlookup, Ne.symm h]
  | cons p rest ih =>
    by_cases hp : p.1 = k
    · simp [dinsert, dlookup, hp, Ne.symm h]
    · simp [dinsert, dlookup, hp, ih]

theorem mem_dinsert [DecidableEq α] (l : List (α × β)) (k : α) (v : β) (q : α × β)
    (h : q ∈ dinsert l k v) : q ∈ l ∨ q = (k, v) := by
  induction l with
  | nil => simp [dinsert] at h; simp [h]
  | cons p rest ih =>
    by_cases hp : p.1 = k
    · simp only [dinsert, hp, if_pos] at h
      rcases List.mem_cons.mp h with h1 | h1
      · right; exact h1
      · left; exact List.mem_cons_of_mem _ h1
    · simp only [dinsert, hp, if_neg, not_false_iff] at h
      rcases List.mem_cons.mp h with h1 | h1
      · left; exact h1 ▸ List.mem_cons_self _ _
      · rcases ih h1 with h2 | h2
        · left; exact List.mem_cons_of_mem _ h2
        · right; exact h2

theorem refreshListing_length (d : Dir) :
    (refreshListing d).length = ((d.map DirEntry.name).filter (isFileName d)).length := by
  unfold refreshListing
  exact ((List.perm_insertionSort _ _).filter _).length_eq

theorem mem_refreshListing (d : Dir) (n : String) :
    n ∈ refreshListing d ↔ n ∈ d.map DirEntry.name ∧ isFileName d n = true := by
  unfold refreshListing
  rw [List.mem_filter, List.mem_insertionSort]

theorem isFileName_mem_names (d : Dir) (n : String) (h : isFileName d n = true) :
    n ∈ d.map DirEntry.name := by
  rcases List.any_eq_true.mp h with ⟨e, he, hp⟩
  simp only [Bool.and_eq_true, decide_eq_true_eq] at hp
  exact List.mem_map.mpr ⟨e, he, hp.1⟩

theorem dirLookup_isFileName (d : Dir) (n : String) (wf : DirWF d)
    (h : isFileName d n = true) : ∃ c, dirLookup d n = some c := by
  induction d with
  | nil => simp [isFileName] at h
  | cons e rest ih =>
    have wfr : DirWF rest := (List.nodup_cons.mp wf).2
    have hne : e.name ∉ rest.map DirEntry.name := (List.nodup_cons.mp wf).1
    by_cases he : e.name = n
    · cases hf : e.isFile with
      | true => exact ⟨e.content, by simp [dirLookup, he, hf]⟩
      | false =>
        exfalso
        have : isFileName rest n = true := by
          simp only [isFileName, List.any_cons, he, hf] at h ⊢
          simpa [isFileName] using h
        exact hne (he ▸ isFileName_mem_names rest n this)
    · have : isFileName rest n = true := by
        simp only [isFileName, List.any_cons, he] at h ⊢
        simpa [isFileName] using h
      rcases ih wfr this with ⟨c, hc⟩
      exact ⟨c, by simp [dirLookup, he, hc]⟩

theorem dirLookup_append_fresh (d : Dir) (fn : String) (c : String)
    (hfn : fn ∉ d.map DirEntry.name) :
    dirLookup (d ++ [⟨fn, true, c⟩]) fn = some c := by
  induction d with
  | nil => simp [dirLookup]
  | cons e rest ih =>
    have h1 : e.name ≠ fn := fun h => hfn (by simp [h])
    have h2 : fn ∉ rest.map DirEntry.name := fun h => hfn (by simp [h])
    simpa [dirLookup, h1] using ih h2

theorem dirWrite_fresh (d : Dir) (fn : String) (c : String)
    (hfn : fn ∉ d.map DirEntry.name) :
    dirWrite d fn c = d ++ [⟨fn, true, c⟩] := by
  unfold dirWrite
  rw [if_neg]
  simp only [List.any_eq_true, decide_eq_true_eq, not_exists, not_and]
  intro e he heq
  exact hfn (List.mem_map.mpr ⟨e, he, heq⟩)

theorem getMessage_ok (mb : DiskMailbox) (n : Nat) (h : Refreshed mb)
    (h1 : 1 ≤ n) (h2 : n ≤ mb.messages.length) :
    ∃ c, mb.getMessage n = .ok { content := c, uid := n } := by
  obtain ⟨wf, hsnap, _⟩ := h
  have hlt : n - 1 < mb.messages.length := by omega
  obtain ⟨nm, hget⟩ : ∃ nm, mb.messages[n - 1]? = some nm :=
    ⟨_, List.getElem?_eq_getElem hlt⟩
  have hmem : nm ∈ mb.messages := List.mem_iff_getElem?.mpr ⟨_, hget⟩
  rw [hsnap] at hmem
  have hfile : isFileName mb.dir nm = true :=
    ((mem_refreshListing mb.dir _).mp hmem).2
  rcases dirLookup_isFileName mb.dir _ wf hfile with ⟨c, hc⟩
  refine ⟨c, ?_⟩
  unfold DiskMailbox.getMessage
  rw [if_pos ⟨h1, h2⟩, hget]
  simp [hc]

theorem dlookup_eq_some_mem [DecidableEq α] (l : List (α × β)) (a : α) (b : β)
    (h : dlookup l a = some b) : (a, b) ∈ l := by
  induction l with
  | nil => simp [dlookup] at h
  | cons p rest ih =>
    by_cases hp : p.1 = a
    · simp only [dlookup, hp, if_pos] at h
      cases h
      have : (a, p.2) = p := by
        rw [← hp]
      exact this ▸ List.mem_cons_self _ _
    · simp only [dlookup, hp, if_neg, not_false_iff] at h
      exact List.mem_cons_of_mem _ (ih h)

/-- `requestAvatarId` succeeds (with the username) exactly when the table
maps the exact username to the exact password. -/
theorem requestAvatarId_ok_iff (users : List (String × String)) (addr secret : String) :
    requestAvatarId users addr secret = .ok addr ↔ dlookup users addr = some secret := by
  unfold requestAvatarId
  cases hl : dlookup users addr with
  | none => simp
  | some pw =>
    by_cases hpw : pw = secret
    · simp [hpw]
    · simp [hpw, Ne.symm hpw]

/-- Any failed authentication produces the one fixed `UnauthorizedLogin`
value. -/
theorem requestAvatarId_fail (users : List (String × String)) (addr secret : String)
    (h : dlookup users addr ≠ some secret) :
    requestAvatarId users addr secret = .error "Usuario o contraseña inválidos" := by
  unfold requestAvatarId
  cases hl : dlookup users addr with
  | none => rfl
  | some pw =>
    have : pw ≠ secret := fun he => h (he ▸ hl)
    simp [this]

/-! ### The claims -/

/-- C5: positional UIDs — for every refreshed mailbox snapshot and every
in-range number `n`, `getMessage n` succeeds and the returned message reports
UID `n`, its 1-based position in the current snapshot; UIDs are therefore
reassigned by position across refreshes, not tied to message identity. -/
theorem c5_positional_uids (mb : DiskMailbox) (n : Nat) (h : Refreshed mb)
    (h1 : 1 ≤ n) (h2 : n ≤ mb.messages.length) :
    ∃ m, mb.getMessage n = .ok m ∧ m.getUID = n := by
  rcases getMessage_ok mb n h h1 h2 with ⟨c, hc⟩
  exact ⟨_, hc, rfl⟩

/-- Witness for C5, on the directory from which file `A.eml` was removed:
positions 1 and 2 now name messages B and C, which report UIDs 1 and 2. -/
theorem c5_positional_uids_witness :
    (∃ m, (mkDiskMailbox dirBC).getMessage 1 = .ok m ∧ m.getUID = 1) ∧
    (∃ m, (mkDiskMailbox dirBC).getMessage 2 = .ok m ∧ m.getUID = 2) ∧
    (mkDiskMailbox dirBC).getMessage 1 = .ok { content := "msgB", uid := 1 } ∧
    (mkDiskMailbox dirBC).getMessage 2 = .ok { content := "msgC", uid := 2 } :=
  ⟨c5_positional_uids (mkDiskMailbox dirBC) 1 (by decide) (by decide) (by decide),
   c5_positional_uids (mkDiskMailbox dirBC) 2 (by decide) (by decide) (by decide),
   by decide, by decide⟩

/-- C6: credential exactness and no existence leak — authentication succeeds
exactly when the loaded table contains the address as a key (exact string
match) with exactly the supplied secret; a present address with a mismatched
secret and an absent address both fail with the one identical
`UnauthorizedLogin` value, so the two failures are indistinguishable. -/
theorem c6_credential_exactness (users : List (String × String)) (addr secret : String) :
    (requestAvatarId users addr secret = .ok addr ↔ dlookup users addr = some secret) ∧
    (dlookup users addr ≠ some secret →
      requestAvatarId users addr secret = .error "Usuario o contraseña inválidos") :=
  ⟨requestAvatarId_ok_iff users addr secret, requestAvatarId_fail users addr secret⟩

/-- Witness for C6: with table `{alice@d ↦ s1}`, a wrong secret for a present
address and any secret for an absent address produce the same failure. -/
theorem c6_credential_exactness_witness :
    requestAvatarId [("alice@d", "s1")] "alice@d" "wrong" =
      .error "Usuario o contraseña inválidos" ∧
    requestAvatarId [("alice@d", "s1")] "absent@d" "s1" =
      .error "Usuario o contraseña inválidos" ∧
    requestAvatarId [("alice@d", "s1")] "alice@d" "s1" = .ok "alice@d" :=
  ⟨(c6_credential_exactness [("alice@d", "s1")] "alice@d" "wrong").2 (by decide),
   (c6_credential_exactness [("alice@d", "s1")] "absent@d" "s1").2 (by decide),
   (c6_credential_exactness [("alice@d", "s1")] "alice@d" "s1").1.mpr (by decide)⟩

/-- C8 as stated is false: `create` of a name other than INBOX is reported as
a *success* (with `None`), not rejected with a failure. -/
theorem c8_create_counterexample :
    DiskAccount.create ⟨mkDiskMailbox dir3⟩ "Drafts" = .ok none := by decide

/-- C8 amended: `delete` and `rename` are always rejected with a failure, but
`create` never fails — a name other than INBOX succeeds with no mailbox
(a silent no-op success) and INBOX succeeds with the existing inbox. -/
theorem c8_mutation_amended (a : DiskAccount) (name oldName newName : String) :
    a.delete name = .error "No se permite eliminar buzones." ∧
    a.rename oldName newName = .error "No se permite renombrar buzones." ∧
    (sUpper name ≠ "INBOX" → a.create name = .ok none) ∧
    (sUpper name = "INBOX" → a.create name = .ok (some a.inbox)) := by
  refine ⟨rfl, rfl, ?_, ?_⟩
  · intro h
    unfold DiskAccount.create
    rw [if_neg h]
  · intro h
    unfold DiskAccount.create
    rw [if_pos h]

/-- Witness for C8 amended, on a concrete account: `delete` and `rename`
fail, `create "Drafts"` silently succeeds with `none`, `create "inbox"`
succeeds with the inbox. -/
theorem c8_mutation_amended_witness :
    DiskAccount.delete ⟨mkDiskMailbox dir3⟩ "X" =
      .error "No se permite eliminar buzones." ∧
    DiskAccount.rename ⟨mkDiskMailbox dir3⟩ "A" "B" =
      .error "No se permite renombrar buzones." ∧
    DiskAccount.create ⟨mkDiskMailbox dir3⟩ "Drafts" = .ok none ∧
    DiskAccount.create ⟨mkDiskMailbox dir3⟩ "inbox" =
      .ok (some (mkDiskMailbox dir3)) :=
  ⟨(c8_mutation_amended ⟨mkDiskMailbox dir3⟩ "X" "A" "B").1,
   (c8_mutation_amended ⟨mkDiskMailbox dir3⟩ "X" "A" "B").2.1,
   (c8_mutation_amended ⟨mkDiskMailbox dir3⟩ "Drafts" "A" "B").2.2.1 (by decide),
   (c8_mutation_amended ⟨mkDiskMailbox dir3⟩ "inbox" "A" "B").2.2.2 (by decide)⟩

/-- C9: recipient domain filtering — a recipient is accepted exactly when its
domain equals a configured domain case-insensitively, with local part and
domain passed through unmodified into the message sink; every other recipient
is rejected with `SMTPBadRcpt`. -/
theorem c9_domain_filtering (acceptedDomains : List String) (domain lc : String) :
    (validateTo acceptedDomains domain lc =
        .ok { domain := domain, user := lc, lines := [] } ↔
      ∃ d ∈ acceptedDomains, sLower domain = sLower d) ∧
    ((∀ d ∈ acceptedDomains, sLower domain ≠ sLower d) →
      validateTo acceptedDomains domain lc = .error ⟨domain, lc⟩) := by
  have key : (acceptedDomains.any fun d => decide (sLower domain = sLower d)) = true ↔
      ∃ d ∈ acceptedDomains, sLower domain = sLower d := by
    rw [List.any_eq_true]
    simp
  unfold validateTo
  by_cases h : (acceptedDomains.any fun d => decide (sLower domain = sLower d)) = true
  · rw [if_pos h]
    refine ⟨iff_of_true rfl (key.mp h), fun hall => ?_⟩
    rcases key.mp h with ⟨d, hd, he⟩
    exact absurd he (hall d hd)
  · rw [if_neg h]
    exact ⟨iff_of_false (by simp) (fun hc => h (key.mpr hc)), fun _ => rfl⟩

/-- Witness for C9: `x@Accepted.Com` is accepted when `accepted.com` is
configured, and `x@other.org` is rejected. -/
theorem c9_domain_filtering_witness :
    validateTo ["accepted.com"] "Accepted.Com" "x" =
      .ok { domain := "Accepted.Com", user := "x", lines := [] } ∧
    validateTo ["accepted.com"] "other.org" "x" =
      .error ⟨"other.org", "x"⟩ :=
  ⟨(c9_domain_filtering ["accepted.com"] "Accepted.Com" "x").1.mpr
     ⟨"accepted.com", by decide, by decide⟩,
   (c9_domain_filtering ["accepted.com"] "other.org" "x").2 (by decide)⟩

/-- The `self.users` fold over rows appended to an accumulator: every entry
comes from the accumulator or is a trimmed row. -/
theorem loadUsersGo_mem (rows : List (String × String)) :
    ∀ (acc : List (String × String)) (kv : String × String),
      kv ∈ rows.foldl (fun acc r => dinsert acc (sTrim r.1) (sTrim r.2)) acc →
      kv ∈ acc ∨ ∃ e p, (e, p) ∈ rows ∧ kv = (sTrim e, sTrim p) := by
  induction rows with
  | nil =>
    intro acc kv h
    left
    simpa using h
  | cons r rest ih =>
    intro acc kv h
    rcases ih _ kv h with hacc | ⟨e, p, hep, hkv⟩
    · rcases mem_dinsert _ _ _ _ hacc with h1 | h1
      · left; exact h1
      · right
        exact ⟨r.1, r.2, by simp, h1⟩
    · right
      exact ⟨e, p, List.mem_cons_of_mem _ hep, hkv⟩

theorem loadUsers_append (rows : List (String × String)) (e p : String) :
    loadUsers (rows ++ [(e, p)]) = dinsert (loadUsers rows) (sTrim e) (sTrim p) := by
  unfold loadUsers
  rw [List.foldl_append]
  rfl

/-- C10: credential table whitespace trimming — a row deposited in the table
authenticates under its trimmed email and trimmed password (the last row for
a trimmed email wins, as in a dict), and every successful authentication
matches the trimmed fields of some row, so a row carrying surrounding
whitespace never authenticates under its verbatim contents. -/
theorem c10_credential_trimming (rows : List (String × String)) (e p addr secret : String) :
    (requestAvatarId (loadUsers (rows ++ [(e, p)])) (sTrim e) (sTrim p) = .ok (sTrim e)) ∧
    (requestAvatarId (loadUsers rows) addr secret = .ok addr →
      ∃ e2 p2, (e2, p2) ∈ rows ∧ addr = sTrim e2 ∧ secret = sTrim p2) := by
  constructor
  · apply (requestAvatarId_ok_iff _ _ _).mpr
    rw [loadUsers_append, dlookup_dinsert_self]
  · intro h
    have hl := (requestAvatarId_ok_iff _ _ _).mp h
    have hmem := dlookup_eq_some_mem _ _ _ hl
    rcases loadUsersGo_mem rows [] _ hmem with hin | ⟨e2, p2, hep, hkv⟩
    · simp at hin
    · rw [Prod.mk.injEq] at hkv
      exact ⟨e2, p2, hep, hkv.1, hkv.2⟩

/-- Witness for C10: the row `(" alice@d.com ", " s3cret ")` authenticates
under the trimmed address and secret. -/
theorem c10_credential_trimming_witness :
    sTrim " alice@d.com " = "alice@d.com" ∧
    requestAvatarId (loadUsers ([] ++ [(" alice@d.com ", " s3cret ")]))
      (sTrim " alice@d.com ") (sTrim " s3cret ") = .ok (sTrim " alice@d.com ") :=
  ⟨by decide, (c10_credential_trimming [] " alice@d.com " " s3cret " "x" "y").1⟩

/-- C7 as stated is false: an address with more than one separator is not
rejected as malformed — `a@b@c` splits into local `a` and domain `b@c` and
resolves successfully when the directory `<root>/b@c/a` exists. -/
theorem c7_resolution_counterexample :
    ("a@b@c".data.count '@' ≠ 1) ∧
    resolveAccount [(("b@c", "a"), [])] "a@b@c" = .ok ⟨mkDiskMailbox []⟩ := by decide

/-- C7 amended: resolution fails with `MalformedAddress` exactly when the
address contains no separator at all; an address with at least one separator
is split at the first one into local part and remainder-as-domain, and
resolution then fails with `MailboxNotFound` when the directory
`<storageRoot>/<domain>/<local>` does not exist, succeeding over that
directory when it does. -/
theorem c7_resolution_amended (st : Storage) (addr : String) :
    (addr.data.contains '@' = false → resolveAccount st addr = .error .malformedAddress) ∧
    (addr.data.contains '@' = true →
      (dlookup st ((splitAddr addr).2, (splitAddr addr).1) = none →
        resolveAccount st addr = .error .mailboxNotFound) ∧
      (∀ d, dlookup st ((splitAddr addr).2, (splitAddr addr).1) = some d →
        resolveAccount st addr = .ok ⟨mkDiskMailbox d⟩)) := by
  unfold resolveAccount
  constructor
  · intro h
    rw [if_pos h]
  · intro h
    have hcond : ¬(addr.data.contains '@' = false) := by
      rw [h]
      simp
    rw [if_neg hcond]
    constructor
    · intro hl
      rw [hl]
    · intro d hl
      rw [hl]

/-- Witness for C7 amended: `user` (no separator) is malformed; `u@dom` finds
the mailbox directory keyed `(dom, u)` and misses an absent one. -/
theorem c7_resolution_amended_witness :
    resolveAccount [(("dom", "u"), dir3)] "user" = .error .malformedAddress ∧
    resolveAccount [(("dom", "u"), dir3)] "u@dom" = .ok ⟨mkDiskMailbox dir3⟩ ∧
    resolveAccount [(("dom", "u"), dir3)] "u@missing" = .error .mailboxNotFound :=
  ⟨(c7_resolution_amended [(("dom", "u"), dir3)] "user").1 (by decide),
   ((c7_resolution_amended [(("dom", "u"), dir3)] "u@dom").2 (by decide)).2 dir3 (by decide),
   ((c7_resolution_amended [(("dom", "u"), dir3)] "u@missing").2 (by decide)).1 (by decide)⟩

/-- C2 as stated is false: `getMessage`'s result is not computed from the
directory contents at call time.  On a state whose directory holds one
readable file but whose snapshot predates the deposit, `getMessage 1` fails,
while on the refreshed state with the identical directory it succeeds — so
the operation reads the prior snapshot, not the directory. -/
theorem c2_refresh_counterexample :
    mbStale.dir = mbStale.refresh.dir ∧
    mbStale.getMessage 1 ≠ mbStale.refresh.getMessage 1 ∧
    mbStale.getMessage 1 = .error ⟨1⟩ ∧
    mbStale.refresh.getMessage 1 = .ok { content := "x", uid := 1 } := by decide

/-- C2 amended: `listMessages` (and `getMessageCount`) does refresh first —
its outcome is independent of the prior snapshot and stale `uidValidity` —
and so does `fetch` of an open-ended range, which resolves the range through
`getMessageCount` and retrieves from the refreshed state; but `getMessage`
and `fetch` of an explicit number set answer from the snapshot of the last
refresh (a number beyond the stale snapshot fails or is dropped no matter
what the directory holds), and `requestStatus` refreshes only through a
requested `MESSAGES` field: `UIDNEXT` alone is computed from the stale
snapshot and leaves the state untouched. -/
theorem c2_refresh_amended (d : Dir) (s s2 : List String) (v v2 : Nat) (n first : Nat) :
    (DiskMailbox.listMessages ⟨d, s, v⟩ = DiskMailbox.listMessages ⟨d, s2, v2⟩) ∧
    (s.length < n → DiskMailbox.getMessage ⟨d, s, v⟩ n = .error ⟨n⟩) ∧
    (s.length < n → DiskMailbox.fetch ⟨d, s, v⟩ [n] = []) ∧
    (DiskMailbox.fetchRange ⟨d, s, v⟩ first = DiskMailbox.fetchRange ⟨d, s2, v2⟩ first) ∧
    (DiskMailbox.requestStatus ⟨d, s, v⟩ ["UIDNEXT"] =
      (⟨d, s, v⟩, [("UIDNEXT", v + s.length + 1)])) := by
  have hgm : s.length < n → DiskMailbox.getMessage ⟨d, s, v⟩ n = .error ⟨n⟩ := by
    intro h
    unfold DiskMailbox.getMessage
    have : ¬(1 ≤ n ∧ n ≤ (DiskMailbox.mk d s v).messages.length) := by
      show ¬(1 ≤ n ∧ n ≤ s.length)
      omega
    rw [if_neg this]
  refine ⟨?_, hgm, ?_, ?_, ?_⟩
  · simp [DiskMailbox.listMessages, DiskMailbox.refresh]
  · intro h
    simp [DiskMailbox.fetch, fetchGo, hgm h]
  · simp [DiskMailbox.fetchRange, DiskMailbox.getMessageCount, DiskMailbox.refresh]
  · have h1 : sUpper "UIDNEXT" = "UIDNEXT" := by decide
    have h2 : ¬(sUpper "UIDNEXT" = "MESSAGES") := by decide
    have h3 : ¬(sUpper "UIDNEXT" = "RECENT") := by decide
    simp [DiskMailbox.requestStatus, requestStatusGo, h1, h2, h3, dinsert,
      DiskMailbox.getUIDNext]

/-- Witness for C2 amended: on a one-file directory with an empty stale
snapshot, listing ignores the stale state, `getMessage 1` and `fetch [1]`
fail from the stale snapshot, the open-ended `fetchRange` ignores the stale
state (and in fact retrieves the newly deposited file the stale `fetch [1]`
missed), and `UIDNEXT` is computed from the stale snapshot. -/
theorem c2_refresh_amended_witness :
    (DiskMailbox.listMessages ⟨[⟨"a.eml", true, "x"⟩], [], 5⟩ =
      DiskMailbox.listMessages ⟨[⟨"a.eml", true, "x"⟩], ["stale"], 7⟩) ∧
    DiskMailbox.getMessage ⟨[⟨"a.eml", true, "x"⟩], [], 1⟩ 1 = .error ⟨1⟩ ∧
    DiskMailbox.fetch ⟨[⟨"a.eml", true, "x"⟩], [], 1⟩ [1] = [] ∧
    (DiskMailbox.fetchRange ⟨[⟨"a.eml", true, "x"⟩], [], 5⟩ 1 =
      DiskMailbox.fetchRange ⟨[⟨"a.eml", true, "x"⟩], ["stale"], 7⟩ 1) ∧
    (DiskMailbox.fetchRange ⟨[⟨"a.eml", true, "x"⟩], [], 1⟩ 1).2 =
      [(1, addResult { content := "x", uid := 1 })] ∧
    DiskMailbox.requestStatus ⟨[⟨"a.eml", true, "x"⟩], [], 1⟩ ["UIDNEXT"] =
      (⟨[⟨"a.eml", true, "x"⟩], [], 1⟩, [("UIDNEXT", 2)]) :=
  ⟨(c2_refresh_amended [⟨"a.eml", true, "x"⟩] [] ["stale"] 5 7 1 1).1,
   (c2_refresh_amended [⟨"a.eml", true, "x"⟩] [] ["stale"] 1 7 1 1).2.1 (by decide),
   (c2_refresh_amended [⟨"a.eml", true, "x"⟩] [] ["stale"] 1 7 1 1).2.2.1 (by decide),
   (c2_refresh_amended [⟨"a.eml", true, "x"⟩] [] ["stale"] 5 7 1 1).2.2.2.1,
   by decide,
   (c2_refresh_amended [⟨"a.eml", true, "x"⟩] [] ["stale"] 1 7 1 1).2.2.2.2⟩

theorem fetchGo_lookup_of_notmem (mb : DiskMailbox) (nums : List Nat) (n : Nat)
    (hn : n ∉ nums) : ∀ acc, dlookup (fetchGo mb nums acc) n = dlookup acc n := by
  induction nums with
  | nil => intro acc; rfl
  | cons k rest ih =>
    intro acc
    have hk : k ≠ n := fun he => hn (he ▸ List.mem_cons_self _ _)
    have hr : n ∉ rest := fun hm => hn (List.mem_cons_of_mem _ hm)
    cases hg : mb.getMessage k with
    | ok m =>
      simp only [fetchGo, hg]
      rw [ih hr, dlookup_dinsert_ne _ _ _ _ (Ne.symm hk)]
    | error e =>
      simp only [fetchGo, hg]
      exact ih hr acc

theorem fetchGo_lookup_err (mb : DiskMailbox) (nums : List Nat) (n : Nat)
    (e : NoSuchMessage) (he : mb.getMessage n = .error e) :
    ∀ acc, dlookup (fetchGo mb nums acc) n = dlookup acc n := by
  induction nums with
  | nil => intro acc; rfl
  | cons k rest ih =>
    intro acc
    cases hg : mb.getMessage k with
    | ok m =>
      have hk : k ≠ n := by
        intro hkn
        rw [hkn, he] at hg
        exact absurd hg (by simp)
      simp only [fetchGo, hg]
      rw [ih, dlookup_dinsert_ne _ _ _ _ (Ne.symm hk)]
    | error e2 =>
      simp only [fetchGo, hg]
      exact ih acc

theorem fetchGo_lookup_ok (mb : DiskMailbox) (n : Nat) (m : SimpleMessage)
    (hm : mb.getMessage n = .ok m) :
    ∀ (nums : List Nat) (acc : List (Nat × FetchResult)), n ∈ nums →
      dlookup (fetchGo mb nums acc) n = some (addResult m) := by
  intro nums
  induction nums with
  | nil =>
    intro acc hmem
    cases hmem
  | cons k rest ih =>
    intro acc hmem
    by_cases hk : k = n
    · subst hk
      simp only [fetchGo, hm]
      by_cases hr : k ∈ rest
      · exact ih _ hr
      · rw [fetchGo_lookup_of_notmem mb rest k hr _, dlookup_dinsert_self]
    · have hr : n ∈ rest := by
        rcases List.mem_cons.mp hmem with h1 | h1
        · exact absurd h1.symm hk
        · exact h1
      cases hg : mb.getMessage k with
      | ok m2 =>
        simp only [fetchGo, hg]
        exact ih _ hr
      | error e =>
        simp only [fetchGo, hg]
        exact ih _ hr

/-- C3 as stated is false: fetching `{2, 999}` from a 3-message mailbox does
not return a `NoSuchMessage` indication for 999 — the returned batch makes no
mention of 999 at all, holding only the successful slot for 2. -/
theorem c3_partial_fetch_counterexample :
    (mkDiskMailbox dir3).fetch [2, 999] =
      [(2, addResult { content := "Subject: two\n\nsecond", uid := 2 })] ∧
    dlookup ((mkDiskMailbox dir3).fetch [2, 999]) 999 = none := by decide

/-- C3 amended: `fetch` retrieves each requested number independently; every
in-range number yields its successful result bundle in the returned batch,
while a number outside `1..N` fails only its own retrieval with
`NoSuchMessage` and is silently omitted from the returned batch — the batch
itself still completes, never failing as a whole. -/
theorem c3_partial_fetch_amended (mb : DiskMailbox) (nums : List Nat) (n : Nat)
    (h : Refreshed mb) (hn : n ∈ nums) :
    (1 ≤ n ∧ n ≤ mb.messages.length →
      ∃ m, mb.getMessage n = .ok m ∧ dlookup (mb.fetch nums) n = some (addResult m)) ∧
    (¬(1 ≤ n ∧ n ≤ mb.messages.length) →
      mb.getMessage n = .error ⟨n⟩ ∧ dlookup (mb.fetch nums) n = none) := by
  constructor
  · intro hb
    rcases getMessage_ok mb n h hb.1 hb.2 with ⟨c, hc⟩
    exact ⟨_, hc, fetchGo_lookup_ok mb n _ hc nums [] hn⟩
  · intro hb
    have he : mb.getMessage n = .error ⟨n⟩ := by
      unfold DiskMailbox.getMessage
      rw [if_neg hb]
    refine ⟨he, ?_⟩
    show dlookup (fetchGo mb nums []) n = none
    rw [fetchGo_lookup_err mb nums n ⟨n⟩ he []]
    rfl

/-- Witness for C3 amended: on the 3-message mailbox, fetching `[2, 999]`
yields the bundle for 2 and drops 999, whose own retrieval failed with
`NoSuchMessage 999`. -/
theorem c3_partial_fetch_amended_witness :
    (∃ m, (mkDiskMailbox dir3).getMessage 2 = .ok m ∧
      dlookup ((mkDiskMailbox dir3).fetch [2, 999]) 2 = some (addResult m)) ∧
    ((mkDiskMailbox dir3).getMessage 999 = .error ⟨999⟩ ∧
      dlookup ((mkDiskMailbox dir3).fetch [2, 999]) 999 = none) :=
  ⟨(c3_partial_fetch_amended (mkDiskMailbox dir3) [2, 999] 2
      (by decide) (by decide)).1 (by decide),
   (c3_partial_fetch_amended (mkDiskMailbox dir3) [2, 999] 999
      (by decide) (by decide)).2 (by decide)⟩

theorem refresh_of_refreshed (mb : DiskMailbox) (h : Refreshed mb) :
    mb.refresh = mb := by
  obtain ⟨_, hs, hv⟩ := h
  cases mb
  simp only [DiskMailbox.refresh] at *
  rw [← hs, ← hv]

/-- One insertion step of the `requestStatus` loop, seen through `dlookup`:
inserting the canonical key `c` (with the right value when `c` is the key
being tracked) turns the tail invariant into the cons invariant. -/
theorem go_step_lookup (mb : DiskMailbox) (k c : String) (x val : Nat)
    (hcv : c = k → val = x)
    (rest : List String) (acc : List (String × Nat))
    (ih : ∀ acc2, dlookup (requestStatusGo mb rest acc2).2 k =
        if k ∈ rest.map sUpper then some x else dlookup acc2 k) :
    dlookup (requestStatusGo mb rest (dinsert acc c val)).2 k =
      if k ∈ c :: rest.map sUpper then some x else dlookup acc k := by
  rw [ih]
  by_cases hr : k ∈ rest.map sUpper
  · rw [if_pos hr, if_pos (List.mem_cons_of_mem _ hr)]
  · rw [if_neg hr]
    by_cases hck : c = k
    · subst hck
      rw [if_pos (List.mem_cons_self _ _), dlookup_dinsert_self, hcv rfl]
    · rw [if_neg (by simp [List.mem_cons, hr, Ne.symm hck]),
        dlookup_dinsert_ne _ _ _ _ (Ne.symm hck)]

/-- The status loop invariant on a refreshed mailbox: the final dict maps a
recognized key `k` to its `statusValue` exactly when some requested name
upper-cases to `k`, and leaves other keys as the accumulator has them. -/
theorem requestStatusGo_lookup (mb : DiskMailbox) (h : mb.refresh = mb)
    (k : String) (x : Nat) (hk : statusValue mb k = some x) :
    ∀ (names : List String) (acc : List (String × Nat)),
      dlookup (requestStatusGo mb names acc).2 k =
        if k ∈ names.map sUpper then some x else dlookup acc k := by
  intro names
  have hk5 : k = "MESSAGES" ∨ k = "RECENT" ∨ k = "UIDNEXT" ∨ k = "UIDVALIDITY" ∨
      k = "UNSEEN" := by
    by_contra hc
    push_neg at hc
    obtain ⟨n1, n2, n3, n4, n5⟩ := hc
    rw [statusValue, if_neg n1, if_neg n2, if_neg n3, if_neg n4, if_neg n5] at hk
    cases hk
  induction names with
  | nil =>
    intro acc
    simp [requestStatusGo]
  | cons nm rest ih =>
    intro acc
    show dlookup (requestStatusGo mb (nm :: rest) acc).2 k =
      if k ∈ sUpper nm :: rest.map sUpper then some x else dlookup acc k
    by_cases h1 : sUpper nm = "MESSAGES"
    · have hstep : requestStatusGo mb (nm :: rest) acc =
          requestStatusGo mb rest (dinsert acc "MESSAGES" mb.messages.length) := by
        simp only [requestStatusGo, h1, if_pos, DiskMailbox.getMessageCount, h]
      rw [hstep, h1]
      refine go_step_lookup mb k "MESSAGES" x mb.messages.length ?_ rest acc ih
      intro hc
      rw [← hc, statusValue, if_pos rfl] at hk
      exact (Option.some.injEq _ _).mp hk
    · by_cases h2 : sUpper nm = "RECENT"
      · have hstep : requestStatusGo mb (nm :: rest) acc =
            requestStatusGo mb rest (dinsert acc "RECENT" 0) := by
          simp only [requestStatusGo, h1, h2, if_pos, if_neg, not_false_iff,
            DiskMailbox.getRecentCount]
          rw [if_neg (by decide)]
        rw [hstep, h2]
        refine go_step_lookup mb k "RECENT" x 0 ?_ rest acc ih
        intro hc
        rw [← hc, statusValue, if_neg (by decide), if_pos rfl] at hk
        exact (Option.some.injEq _ _).mp hk
      · by_cases h3 : sUpper nm = "UIDNEXT"
        · have hstep : requestStatusGo mb (nm :: rest) acc =
              requestStatusGo mb rest
                (dinsert acc "UIDNEXT" (mb.uidValidity + mb.messages.length + 1)) := by
            simp only [requestStatusGo, h1, h2, h3, if_pos, if_neg, not_false_iff,
              DiskMailbox.getUIDNext]
            rw [if_neg (by decide), if_neg (by decide)]
          rw [hstep, h3]
          refine go_step_lookup mb k "UIDNEXT" x
            (mb.uidValidity + mb.messages.length + 1) ?_ rest acc ih
          intro hc
          rw [← hc, statusValue, if_neg (by decide), if_neg (by decide),
            if_pos rfl] at hk
          exact (Option.some.injEq _ _).mp hk
        · by_cases h4 : sUpper nm = "UIDVALIDITY"
          · have hstep : requestStatusGo mb (nm :: rest) acc =
                requestStatusGo mb rest (dinsert acc "UIDVALIDITY" mb.uidValidity) := by
              simp only [requestStatusGo, h1, h2, h3, h4, if_pos, if_neg, not_false_iff,
                DiskMailbox.getUIDValidity]
              rw [if_neg (by decide), if_neg (by decide), if_neg (by decide)]
            rw [hstep, h4]
            refine go_step_lookup mb k "UIDVALIDITY" x mb.uidValidity ?_ rest acc ih
            intro hc
            rw [← hc, statusValue, if_neg (by decide), if_neg (by decide),
              if_neg (by decide), if_pos rfl] at hk
            exact (Option.some.injEq _ _).mp hk
          · by_cases h5 : sUpper nm = "UNSEEN"
            · have hstep : requestStatusGo mb (nm :: rest) acc =
                  requestStatusGo mb rest (dinsert acc "UNSEEN" 0) := by
                simp only [requestStatusGo, h1, h2, h3, h4, h5, if_pos, if_neg,
                  not_false_iff]
                rw [if_neg (by decide), if_neg (by decide), if_neg (by decide),
                  if_neg (by decide)]
              rw [hstep, h5]
              refine go_step_lookup mb k "UNSEEN" x 0 ?_ rest acc ih
              intro hc
              rw [← hc, statusValue, if_neg (by decide), if_neg (by decide),
                if_neg (by decide), if_neg (by decide), if_pos rfl] at hk
              exact (Option.some.injEq _ _).mp hk
            · have hstep : requestStatusGo mb (nm :: rest) acc =
                  requestStatusGo mb rest acc := by
                simp only [requestStatusGo, h1, h2, h3, h4, h5, if_neg, not_false_iff]
              have hne : k ≠ sUpper nm := by
                rcases hk5 with h | h | h | h | h <;> rw [h] <;>
                  exact fun he => by
                    first
                    | exact h1 he.symm
                    | exact h2 he.symm
                    | exact h3 he.symm
                    | exact h4 he.symm
                    | exact h5 he.symm
              rw [hstep, ih acc]
              by_cases hr : k ∈ rest.map sUpper
              · rw [if_pos hr, if_pos (List.mem_cons_of_mem _ hr)]
              · rw [if_neg hr, if_neg (by simp [List.mem_cons, hr, hne])]

theorem keys_of_dinsert_step (acc : List (String × Nat)) (c : String) (val : Nat)
    (kv : String × Nat) (hc : c ∈ recognizedKeys)
    (h : kv ∈ dinsert acc c val ∨ kv.1 ∈ recognizedKeys) :
    kv ∈ acc ∨ kv.1 ∈ recognizedKeys := by
  rcases h with h | h
  · rcases mem_dinsert _ _ _ _ h with h2 | h2
    · exact Or.inl h2
    · right
      rw [h2]
      exact hc
  · exact Or.inr h

/-- Every key the status loop adds is one of the five recognized field
names; anything else requested is skipped, never stored. -/
theorem requestStatusGo_keys (names : List String) :
    ∀ (mb : DiskMailbox) (acc : List (String × Nat)) (kv : String × Nat),
      kv ∈ (requestStatusGo mb names acc).2 →
      kv ∈ acc ∨ kv.1 ∈ recognizedKeys := by
  induction names with
  | nil =>
    intro mb acc kv h
    exact Or.inl h
  | cons nm rest ih =>
    intro mb acc kv h
    by_cases h1 : sUpper nm = "MESSAGES"
    · have hstep : requestStatusGo mb (nm :: rest) acc =
          requestStatusGo mb.getMessageCount.1 rest
            (dinsert acc "MESSAGES" mb.getMessageCount.2) := by
        simp only [requestStatusGo, h1, if_pos]
      rw [hstep] at h
      exact keys_of_dinsert_step acc "MESSAGES" _ kv (by decide) (ih _ _ kv h)
    · by_cases h2 : sUpper nm = "RECENT"
      · have hstep : requestStatusGo mb (nm :: rest) acc =
            requestStatusGo mb rest (dinsert acc "RECENT" mb.getRecentCount) := by
          simp only [requestStatusGo, h1, h2, if_pos, if_neg, not_false_iff]
          rw [if_neg (by decide)]
        rw [hstep] at h
        exact keys_of_dinsert_step acc "RECENT" _ kv (by decide) (ih _ _ kv h)
      · by_cases h3 : sUpper nm = "UIDNEXT"
        · have hstep : requestStatusGo mb (nm :: rest) acc =
              requestStatusGo mb rest (dinsert acc "UIDNEXT" mb.getUIDNext) := by
            simp only [requestStatusGo, h1, h2, h3, if_pos, if_neg, not_false_iff]
            rw [if_neg (by decide), if_neg (by decide)]
          rw [hstep] at h
          exact keys_of_dinsert_step acc "UIDNEXT" _ kv (by decide) (ih _ _ kv h)
        · by_cases h4 : sUpper nm = "UIDVALIDITY"
          · have hstep : requestStatusGo mb (nm :: rest) acc =
                requestStatusGo mb rest
                  (dinsert acc "UIDVALIDITY" mb.getUIDValidity) := by
              simp only [requestStatusGo, h1, h2, h3, h4, if_pos, if_neg, not_false_iff]
              rw [if_neg (by decide), if_neg (by decide), if_neg (by decide)]
            rw [hstep] at h
            exact keys_of_dinsert_step acc "UIDVALIDITY" _ kv (by decide) (ih _ _ kv h)
          · by_cases h5 : sUpper nm = "UNSEEN"
            · have hstep : requestStatusGo mb (nm :: rest) acc =
                  requestStatusGo mb rest (dinsert acc "UNSEEN" 0) := by
                simp only [requestStatusGo, h1, h2, h3, h4, h5, if_pos, if_neg,
                  not_false_iff]
                rw [if_neg (by decide), if_neg (by decide), if_neg (by decide),
                  if_neg (by decide)]
              rw [hstep] at h
              exact keys_of_dinsert_step acc "UNSEEN" _ kv (by decide) (ih _ _ kv h)
            · have hstep : requestStatusGo mb (nm :: rest) acc =
                  requestStatusGo mb rest acc := by
                simp only [requestStatusGo, h1, h2, h3, h4, h5, if_neg, not_false_iff]
              rw [hstep] at h
              exact ih _ _ kv h

/-- C4: status computation — on a refreshed mailbox with `N` messages and
UID-validity marker `v`, `requestStatus` maps `MESSAGES` to `N`, `RECENT` to
0, `UIDNEXT` to `v + N + 1`, `UIDVALIDITY` to `v` and `UNSEEN` to 0, each
exactly when requested (case-insensitively), and every unrecognized requested
field name is silently omitted: all stored keys are recognized ones.  (The
spec's field names MESSAGE-COUNT, RECENT-COUNT, NEXT-UID, UID-VALIDITY,
UNSEEN-COUNT correspond to the wire names MESSAGES, RECENT, UIDNEXT,
UIDVALIDITY, UNSEEN.) -/
theorem c4_status_fields (mb : DiskMailbox) (h : Refreshed mb) (fields : List String) :
    (dlookup (mb.requestStatus fields).2 "MESSAGES" =
      if "MESSAGES" ∈ fields.map sUpper then some mb.messages.length else none) ∧
    (dlookup (mb.requestStatus fields).2 "RECENT" =
      if "RECENT" ∈ fields.map sUpper then some 0 else none) ∧
    (dlookup (mb.requestStatus fields).2 "UIDNEXT" =
      if "UIDNEXT" ∈ fields.map sUpper then
        some (mb.uidValidity + mb.messages.length + 1) else none) ∧
    (dlookup (mb.requestStatus fields).2 "UIDVALIDITY" =
      if "UIDVALIDITY" ∈ fields.map sUpper then some mb.uidValidity else none) ∧
    (dlookup (mb.requestStatus fields).2 "UNSEEN" =
      if "UNSEEN" ∈ fields.map sUpper then some 0 else none) ∧
    (∀ kv ∈ (mb.requestStatus fields).2, kv.1 ∈ recognizedKeys) := by
  have href := refresh_of_refreshed mb h
  refine ⟨?_, ?_, ?_, ?_, ?_, ?_⟩
  · exact requestStatusGo_lookup mb href "MESSAGES" _
      (by rw [statusValue, if_pos rfl]) fields []
  · exact requestStatusGo_lookup mb href "RECENT" _
      (by rw [statusValue, if_neg (by decide), if_pos rfl]) fields []
  · exact requestStatusGo_lookup mb href "UIDNEXT" _
      (by rw [statusValue, if_neg (by decide), if_neg (by decide), if_pos rfl]) fields []
  · exact requestStatusGo_lookup mb href "UIDVALIDITY" _
      (by rw [statusValue, if_neg (by decide), if_neg (by decide), if_neg (by decide),
        if_pos rfl]) fields []
  · exact requestStatusGo_lookup mb href "UNSEEN" _
      (by rw [statusValue, if_neg (by decide), if_neg (by decide), if_neg (by decide),
        if_neg (by decide), if_pos rfl]) fields []
  · intro kv hkv
    rcases requestStatusGo_keys fields mb [] kv hkv with h1 | h1
    · cases h1
    · exact h1

/-- Witness for C4: the five-message mailbox with `uidValidity = 1`, queried
for `MESSAGES`, `UIDNEXT`, `UNSEEN` and the unrecognized `FOO`, reports 5, 7,
0 and omits `FOO`. -/
theorem c4_status_fields_witness :
    dlookup ((mkDiskMailbox dir5).requestStatus
      ["MESSAGES", "UIDNEXT", "UNSEEN", "FOO"]).2 "MESSAGES" = some 5 ∧
    dlookup ((mkDiskMailbox dir5).requestStatus
      ["MESSAGES", "UIDNEXT", "UNSEEN", "FOO"]).2 "UIDNEXT" = some 7 ∧
    dlookup ((mkDiskMailbox dir5).requestStatus
      ["MESSAGES", "UIDNEXT", "UNSEEN", "FOO"]).2 "UNSEEN" = some 0 ∧
    dlookup ((mkDiskMailbox dir5).requestStatus
      ["MESSAGES", "UIDNEXT", "UNSEEN", "FOO"]).2 "FOO" = none :=
  ⟨((c4_status_fields (mkDiskMailbox dir5) (by decide)
      ["MESSAGES", "UIDNEXT", "UNSEEN", "FOO"]).1).trans (by decide),
   ((c4_status_fields (mkDiskMailbox dir5) (by decide)
      ["MESSAGES", "UIDNEXT", "UNSEEN", "FOO"]).2.2.1).trans (by decide),
   ((c4_status_fields (mkDiskMailbox dir5) (by decide)
      ["MESSAGES", "UIDNEXT", "UNSEEN", "FOO"]).2.2.2.2.1).trans (by decide),
   by decide⟩

theorem lineReceived_foldl (ls : List String) :
    ∀ m : SmtpMessage, (ls.foldl SmtpMessage.lineReceived m).lines = m.lines ++ ls := by
  induction ls with
  | nil =>
    intro m
    simp
  | cons l rest ih =>
    intro m
    rw [List.foldl_cons, ih]
    simp [SmtpMessage.lineReceived]

/-- C1: round trip — buffering any sequence of lines for an accepted
recipient, committing the deposit under a fresh file name, and then opening
and listing that user's mailbox makes exactly one new message visible
relative to the pre-deposit listing, and `getMessage` on the new entry
returns a message whose full RFC822 text is the buffered lines joined with a
single newline separator. -/
theorem c1_roundtrip (ls : List String) (d : Dir) (fn dom usr : String)
    (hfn : fn ∉ d.map DirEntry.name) :
    ((mkDiskMailbox ((ls.foldl SmtpMessage.lineReceived
        ⟨dom, usr, []⟩).eomReceived d fn)).listMessages.2.length =
      (mkDiskMailbox d).listMessages.2.length + 1) ∧
    ∃ n, 1 ≤ n ∧
      n ≤ (mkDiskMailbox ((ls.foldl SmtpMessage.lineReceived
        ⟨dom, usr, []⟩).eomReceived d fn)).listMessages.2.length ∧
      (mkDiskMailbox ((ls.foldl SmtpMessage.lineReceived
        ⟨dom, usr, []⟩).eomReceived d fn)).getMessage n =
        .ok { content := String.intercalate "\n" ls, uid := n } := by
  have hlines : (ls.foldl SmtpMessage.lineReceived ⟨dom, usr, []⟩).lines = ls := by
    rw [lineReceived_foldl]
    rfl
  have hd2 : (ls.foldl SmtpMessage.lineReceived ⟨dom, usr, []⟩).eomReceived d fn =
      d ++ [⟨fn, true, String.intercalate "\n" ls⟩] := by
    unfold SmtpMessage.eomReceived
    rw [hlines, dirWrite_fresh d fn _ hfn]
  have hlistLen : ∀ x : Dir,
      (mkDiskMailbox x).listMessages.2.length = (refreshListing x).length := by
    intro x
    simp [mkDiskMailbox, DiskMailbox.listMessages, DiskMailbox.refresh]
  have hf2 : isFileName (d ++ [⟨fn, true, String.intercalate "\n" ls⟩]) fn = true := by
    simp [isFileName]
  have hpt : ∀ x ∈ d.map DirEntry.name,
      isFileName (d ++ [⟨fn, true, String.intercalate "\n" ls⟩]) x = isFileName d x := by
    intro x hx
    have hne : ¬(fn = x) := fun he => hfn (he ▸ hx)
    simp [isFileName, List.any_append, hne]
  have hcount : (refreshListing (d ++ [⟨fn, true, String.intercalate "\n" ls⟩])).length =
      (refreshListing d).length + 1 := by
    rw [refreshListing_length, refreshListing_length, List.map_append,
      List.filter_append, List.length_append, List.filter_congr hpt]
    have h2 : List.filter (isFileName (d ++ [⟨fn, true, String.intercalate "\n" ls⟩]))
        (List.map DirEntry.name [⟨fn, true, String.intercalate "\n" ls⟩]) = [fn] := by
      simp [hf2]
    rw [h2]
    rfl
  refine ⟨by rw [hd2, hlistLen, hlistLen, hcount], ?_⟩
  have hmem : fn ∈ refreshListing (d ++ [⟨fn, true, String.intercalate "\n" ls⟩]) :=
    (mem_refreshListing _ _).mpr ⟨by simp, hf2⟩
  obtain ⟨i, hilt, hieq⟩ := List.getElem_of_mem hmem
  refine ⟨i + 1, by omega, ?_, ?_⟩
  · rw [hd2, hlistLen]
    omega
  · rw [hd2]
    have hcond : 1 ≤ i + 1 ∧ i + 1 ≤
        (mkDiskMailbox (d ++ [⟨fn, true, String.intercalate "\n" ls⟩])).messages.length := by
      show 1 ≤ i + 1 ∧ i + 1 ≤
        (refreshListing (d ++ [⟨fn, true, String.intercalate "\n" ls⟩])).length
      omega
    have hget : (mkDiskMailbox
        (d ++ [⟨fn, true, String.intercalate "\n" ls⟩])).messages[i + 1 - 1]? = some fn := by
      show (refreshListing (d ++ [⟨fn, true, String.intercalate "\n" ls⟩]))[i]? = some fn
      rw [List.getElem?_eq_getElem hilt, hieq]
    unfold DiskMailbox.getMessage
    rw [if_pos hcond, hget]
    have hlook : dirLookup
        (mkDiskMailbox (d ++ [⟨fn, true, String.intercalate "\n" ls⟩])).dir fn =
        some (String.intercalate "\n" ls) := by
      show dirLookup (d ++ [⟨fn, true, String.intercalate "\n" ls⟩]) fn =
        some (String.intercalate "\n" ls)
      exact dirLookup_append_fresh d fn _ hfn
    simp [hlook]

/-- Witness for C1: depositing the three lines `From: x`, `` and `hello` as
`message_2.eml` next to one existing message makes the listing grow from one
to two entries, and the new entry reads back as `From: x\n\nhello`. -/
theorem c1_roundtrip_witness :
    ((mkDiskMailbox ((["From: x", "", "hello"].foldl SmtpMessage.lineReceived
        ⟨"dom", "usr", []⟩).eomReceived [⟨"message_1.eml", true, "old"⟩]
        "message_2.eml")).listMessages.2.length =
      (mkDiskMailbox [⟨"message_1.eml", true, "old"⟩]).listMessages.2.length + 1) ∧
    ∃ n, 1 ≤ n ∧
      n ≤ (mkDiskMailbox ((["From: x", "", "hello"].foldl SmtpMessage.lineReceived
        ⟨"dom", "usr", []⟩).eomReceived [⟨"message_1.eml", true, "old"⟩]
        "message_2.eml")).listMessages.2.length ∧
      (mkDiskMailbox ((["From: x", "", "hello"].foldl SmtpMessage.lineReceived
        ⟨"dom", "usr", []⟩).eomReceived [⟨"message_1.eml", true, "old"⟩]
        "message_2.eml")).getMessage n =
        .ok { content := String.intercalate "\n" ["From: x", "", "hello"], uid := n } :=
  c1_roundtrip ["From: x", "", "hello"] [⟨"message_1.eml", true, "old"⟩]
    "message_2.eml" "dom" "usr" (by decide)

end MailSpec
